import Mathlib

/-
Verification of gdal2custommap against its specification.

Shallow embedding of the two tools:
  * gdal2kml.py : tile-layout solver (`tiles`), affine projection (`transform`),
    tile extraction bounds (`create_tile`), KML document assembly (`create_kml`).
  * kml2kmz.py : percent-decoding (`urldecode`), local-file URI stripping,
    image resolution and KMZ repackaging (`process_href`).

Modelling conventions:
  * Python ints are ℤ (pixel counts, sizes) or ℕ (loop indices);
  * Python floats are exact rationals ℚ (the source only divides, multiplies,
    floors and ceils quantities derived from machine integers);
  * fallible code (raise / parser.error) is `Except String`;
  * writes to disk are modelled by returning the written text / the list of
    file paths that would be written.
-/

namespace Gdal2Kml

/-- First element of `x :: xs` whose key is minimal (earlier elements win ties).
This is the specification-side description of "stable sort by key, take the
first element": the spec's tie-break rule for the layout solver. -/
def firstMinBy {α : Type} (key : α → ℤ) (x : α) (xs : List α) : α :=
  xs.foldl (fun m y => if key y < key m then y else m) x

/-- `tiles` from gdal2kml.py, lines 13-42.  Brute-force tiling layout solver:
`canvas_shape` is `(w, h)`, `target` the target tile edge.  The trivial cases
return `(1, ceil(best_case))` / `(ceil(best_case), 1)`; otherwise four
candidates are built (ceil and floor of each axis ratio as driving count, the
other axis derived), sorted stably by total cell count, and the first is
returned.  Python's `list.sort` is a stable sort; it is modelled by the stable
`List.insertionSort`.  Python indexing `results[0]` on the four-element list is
total; the `[]` branch of the match is unreachable. -/
def tiles (w h target : ℤ) : ℤ × ℤ :=
  let best_case : ℚ := ((w : ℚ) * (h : ℚ)) / (target : ℚ) ^ 2
  if w ≤ target then (1, ⌈best_case⌉)
  else if h ≤ target then (⌈best_case⌉, 1)
  else
    let r0 : ℚ := (w : ℚ) / (target : ℚ)
    let r1 : ℚ := (h : ℚ) / (target : ℚ)
    let aUp0 : ℤ := ⌈r0⌉
    let aUp1 : ℤ := ⌈r1⌉
    let bUp0 : ℤ := ⌈best_case / (aUp0 : ℚ)⌉
    let bUp1 : ℤ := ⌈best_case / (aUp1 : ℚ)⌉
    let aDown0 : ℤ := ⌊r0⌋
    let aDown1 : ℤ := ⌊r1⌋
    let bDown0 : ℤ := ⌈best_case / (aDown0 : ℚ)⌉
    let bDown1 : ℤ := ⌈best_case / (aDown1 : ℚ)⌉
    let results : List (ℤ × ℤ × ℤ) :=
      [(aUp0, bUp0, aUp0 * bUp0), (aDown0, bDown0, aDown0 * bDown0),
       (aUp1, bUp1, aUp1 * bUp1), (aDown1, bDown1, aDown1 * bDown1)]
    let sorted := results.insertionSort (fun a b => a.2.2 ≤ b.2.2)
    ((sorted.headI).1, (sorted.headI).2.1)

/-- The six GDAL geotransform coefficients, gdal2kml.py line 72
(`img.GetGeoTransform()`): `t0` origin x, `t1` pixel width, `t2` row rotation,
`t3` origin y, `t4` column rotation, `t5` pixel height. -/
structure GeoTransform where
  t0 : ℚ
  t1 : ℚ
  t2 : ℚ
  t3 : ℚ
  t4 : ℚ
  t5 : ℚ
  deriving DecidableEq

/-- `transform` from gdal2kml.py, lines 45-49: apply the 6-coefficient affine
transform to pixel coordinates `(x, y)`. -/
def transform (x y : ℤ) (gt : GeoTransform) : ℚ × ℚ :=
  (gt.t0 + (x : ℚ) * gt.t1 + (y : ℚ) * gt.t2,
   gt.t3 + (x : ℚ) * gt.t4 + (y : ℚ) * gt.t5)

/-- The `result` dict of `create_tile`, gdal2kml.py lines 81-86. -/
structure Bounds where
  north : ℚ
  east : ℚ
  south : ℚ
  west : ℚ
  deriving DecidableEq

/-- `create_tile` from gdal2kml.py, lines 52-88.  The first component is the
pixel rectangle passed unchanged to `ReadRaster` (the function performs no
clamping and no bounds check of its own); the second is the computed
geographic bounds, failing exactly when the geotransform carries rotation
(lines 74-79). -/
def create_tile (offset size : ℤ × ℤ) (gt : GeoTransform) :
    ((ℤ × ℤ) × (ℤ × ℤ)) × Except String Bounds :=
  ((offset, size),
    if gt.t2 ≠ 0 ∨ gt.t4 ≠ 0 then
      .error "Source projection incompatible, transform contains rotation"
    else
      let nw := transform offset.1 offset.2 gt
      let se := transform (offset.1 + size.1) (offset.2 + size.2) gt
      .ok { north := nw.2, east := se.1, south := se.2, west := nw.1 })

/-- Text of the KML header written at gdal2kml.py lines 144-149, up to the
interpolated folder name. -/
def kml_headerA : String :=
  "<?xml version=\"1.0\" encoding=\"UTF-8\"?>\n             <kml xmlns=\"http://www.opengis.net/kml/2.2\" xmlns:gx=\"http://www.google.com/kml/ext/2.2\" \n             xmlns:kml=\"http://www.opengis.net/kml/2.2\" xmlns:atom=\"http://www.w3.org/2005/Atom\">\n               <Folder>\n                 <name>"

/-- Text of the KML header following the interpolated folder name. -/
def kml_headerB : String := "</name>\n             "

/-- The KML header with the folder name interpolated verbatim (an f-string in
the source; no escaping is applied). -/
def kml_header (name : String) : String := kml_headerA ++ name ++ kml_headerB

/-- Closing text written at gdal2kml.py lines 196-198. -/
def kml_footer : String := "  </Folder>\n    </kml>\n    "

/-- Tile identifier `f'{t_y},{t_x}'` from gdal2kml.py line 153, used for the
exclusion lookup. -/
def tile_id (tY tX : ℕ) : String := toString tY ++ "," ++ toString tX

/-- Tile output file name `f'{base}_{t_x:d}_{t_y:d}.jpg'`, gdal2kml.py
line 166. -/
def tile_outfile (base : String) (tY tX : ℕ) : String :=
  base ++ "_" ++ toString tX ++ "_" ++ toString tY ++ ".jpg"

/-- The text of one `<GroundOverlay>` element following its interpolated
`<name>` content (gdal2kml.py lines 174-193). -/
def ground_overlay_tail (outfile path : String) (order : ℤ) (b : Bounds) : String :=
  "</name>\n                <color>ffffffff</color>\n                <drawOrder>" ++
  toString order ++
  "</drawOrder>\n                <Icon>\n                    <href>" ++
  path ++ "/" ++ outfile ++
  "</href>\n                    <viewBoundScale>0.75</viewBoundScale>\n                </Icon>\n                <LatLonBox>" ++
  "<north>" ++ toString b.north ++ "</north>\n                                <south>" ++
  toString b.south ++ "</south>\n                                <east>" ++
  toString b.east ++ "</east>\n                                <west>" ++
  toString b.west ++
  "</west>\n                                <rotation>0</rotation>\n                " ++
  "        </LatLonBox>\n            </GroundOverlay>\n    "

/-- One `<GroundOverlay>` element as written by gdal2kml.py lines 174-193;
the tile file name is interpolated verbatim into the `<name>` element.
Python float formatting of the bounds is modelled by `toString` on ℚ. -/
def ground_overlay (outfile path : String) (order : ℤ) (b : Bounds) : String :=
  "    <GroundOverlay>\n                <name>" ++ outfile ++
  ground_overlay_tail outfile path order b

/-- Row-major traversal of the grid, gdal2kml.py lines 151-152:
`for t_y in range(rows): for t_x in range(cols)`; cells are `(t_y, t_x)`. -/
def kml_cells (cols rows : ℕ) : List (ℕ × ℕ) :=
  (List.range rows).flatMap (fun tY => (List.range cols).map (fun tX => (tY, tX)))

/-- Body of the tile loop, gdal2kml.py lines 151-193, as a recursion over the
row-major cell list.  Produces the concatenated ground-overlay text and the
list of tile file paths written.  Mirrors the source faithfully:
  * the exclusion test skips the whole cell (no file, no entry);
  * the two size "adjustments" at lines 161-165 assign `tile_sizes[i]` to a
    variable that already holds `tile_sizes[i]` — a no-op, kept as an `if`
    with identical branches;
  * the out-of-bounds test at line 169 only logs and does not alter control
    flow, so it has no effect in the model;
  * a rotation in the geotransform makes `create_tile` raise at the first
    non-excluded cell, aborting the run. -/
def kml_body (gt : GeoTransform) (imgW imgH border tw th : ℤ)
    (base directory path : String) (order : ℤ) (exclude : List String) :
    List (ℕ × ℕ) → Except String (String × List String)
  | [] => .ok ("", [])
  | (tY, tX) :: rest =>
    if exclude.contains (tile_id tY tX) then
      kml_body gt imgW imgH border tw th base directory path order exclude rest
    else
      let src_corner : ℤ × ℤ := (border + (tX : ℤ) * tw, border + (tY : ℤ) * th)
      let sx : ℤ := if src_corner.1 + tw > imgW - border then tw else tw
      let sy : ℤ := if src_corner.2 + th > imgH - border then th else th
      let outfile := tile_outfile base tY tX
      let outpath := directory ++ "/" ++ outfile
      match (create_tile src_corner (sx, sy) gt).2 with
      | .error e => .error e
      | .ok b =>
        match kml_body gt imgW imgH border tw th base directory path order exclude rest with
        | .error e => .error e
        | .ok (doc, files) => .ok (ground_overlay outfile path order b ++ doc, outpath :: files)

/-- The KML document and tile files produced for a given grid layout
(`cols`, `rows`), tile pixel sizes and exclusion set: header with the folder
name, the loop body over the row-major cells, and the footer
(gdal2kml.py lines 142-201). -/
def kml_doc (gt : GeoTransform) (imgW imgH border tw th : ℤ)
    (base directory path name : String) (order : ℤ) (exclude : List String)
    (cols rows : ℕ) : Except String (String × List String) :=
  match kml_body gt imgW imgH border tw th base directory path order exclude
      (kml_cells cols rows) with
  | .error e => .error e
  | .ok (body, files) => .ok (kml_header name ++ body ++ kml_footer, files)

/-- `create_kml` from gdal2kml.py, lines 91-201, restricted to its pure core:
the cropped canvas, the layout from `tiles`, the floored tile pixel sizes
(line 139: `int(math.floor(cropped / layout))`), then the document assembly. -/
def create_kml (gt : GeoTransform) (imgW imgH border tile_size : ℤ)
    (base directory path name : String) (order : ℤ) (exclude : List String) :
    Except String (String × List String) :=
  let cropW : ℤ := imgW - 2 * border
  let cropH : ℤ := imgH - 2 * border
  let layout := tiles cropW cropH tile_size
  let tw : ℤ := ⌊(cropW : ℚ) / (layout.1 : ℚ)⌋
  let th : ℤ := ⌊(cropH : ℚ) / (layout.2 : ℚ)⌋
  kml_doc gt imgW imgH border tw th base directory path name order exclude
    layout.1.toNat layout.2.toNat

/-- The geographic bounds `create_tile` reports for the grid cell
`c = (t_y, t_x)` under a rotation-free geotransform: the cell's pixel
rectangle corner `(border + t_x*tw, border + t_y*th)` and its opposite corner
mapped through `transform` (gdal2kml.py lines 80-88 at the loop's rectangle,
line 160). -/
def cell_bounds (gt : GeoTransform) (border tw th : ℤ) (c : ℕ × ℕ) : Bounds :=
  let x0 : ℤ := border + (c.2 : ℤ) * tw
  let y0 : ℤ := border + (c.1 : ℤ) * th
  { north := (transform x0 y0 gt).2,
    east := (transform (x0 + tw) (y0 + th) gt).1,
    south := (transform (x0 + tw) (y0 + th) gt).2,
    west := (transform x0 y0 gt).1 }

/-- Concatenation of the strings produced for each list element, in order. -/
def concatMap {α : Type} (f : α → String) : List α → String
  | [] => ""
  | x :: xs => f x ++ concatMap f xs

/-- Escaping of the markup-special characters, modelled from the spec's words
"Must escape any characters in the folder name or filenames that are special
in the output markup" (claim side; the source has no counterpart). -/
def xml_escape_spec (s : String) : String :=
  String.mk (s.data.flatMap (fun c =>
    if c = '&' then "&amp;".data
    else if c = '<' then "&lt;".data
    else if c = '>' then "&gt;".data
    else [c]))

end Gdal2Kml

namespace Kml2Kmz

/-- Value of a hex digit as accepted by Python's `int(_, 16)`
(kml2kmz.py line 11: `int(m.group(1), 16)`); `none` models `ValueError`. -/
def hexDigitVal (c : Char) : Option ℕ :=
  if '0' ≤ c ∧ c ≤ '9' then some (c.toNat - '0'.toNat)
  else if 'a' ≤ c ∧ c ≤ 'f' then some (c.toNat - 'a'.toNat + 10)
  else if 'A' ≤ c ∧ c ≤ 'F' then some (c.toNat - 'A'.toNat + 10)
  else none

/-- Membership in the character class of the regex `%([0-9a-hA-H][0-9a-hA-H])`
(kml2kmz.py line 15).  Note the class reaches to `h`, beyond the hex digits. -/
def inHexClass (c : Char) : Bool :=
  ('0' ≤ c && c ≤ '9') || ('a' ≤ c && c ≤ 'h') || ('A' ≤ c && c ≤ 'H')

/-- `htc` from kml2kmz.py, lines 10-11: `chr(int(group, 16))`.
`none` models the `ValueError` raised on `g`/`h` class members. -/
def htc (c1 c2 : Char) : Option Char :=
  match hexDigitVal c1, hexDigitVal c2 with
  | some v1, some v2 => some (Char.ofNat (16 * v1 + v2))
  | _, _ => none

/-- Left-to-right, non-overlapping substitution performed by
`rex.sub(htc, url)` (kml2kmz.py line 16) on the character list: at each
position, a `%` followed by two class characters is replaced through `htc`
and scanning resumes after the match; otherwise the character is copied and
scanning advances one position. -/
def urldecodeAux : ℕ → List Char → Option (List Char)
  | _, [] => some []
  | 0, _ :: _ => none
  | fuel + 1, c :: rest =>
    if c = '%' then
      match rest with
      | c1 :: c2 :: rest2 =>
        if inHexClass c1 && inHexClass c2 then
          match htc c1 c2 with
          | some d => (urldecodeAux fuel rest2).map (fun t => d :: t)
          | none => none
        else
          (urldecodeAux fuel rest).map (fun t => '%' :: t)
      | _ => (urldecodeAux fuel rest).map (fun t => c :: t)
    else
      (urldecodeAux fuel rest).map (fun t => c :: t)

/-- `urldecode` from kml2kmz.py, lines 14-16.  The fuel argument of the
scanner is its structural-recursion measure: every step consumes one unit of
fuel and at least one character, so with the list's length as initial fuel
the `0, _ :: _` branch is never reached. -/
def urldecode (url : String) : Option String :=
  (urldecodeAux url.data.length url.data).map String.mk

/-- `.replace('file:///', '')` from kml2kmz.py line 56, specialised to its
fixed arguments: Python's `str.replace` removes every (left-to-right,
non-overlapping) occurrence of `file:///`, its third slash included. -/
def stripFileUriAux : List Char → List Char
  | 'f' :: 'i' :: 'l' :: 'e' :: ':' :: '/' :: '/' :: '/' :: rest =>
    stripFileUriAux rest
  | c :: rest => c :: stripFileUriAux rest
  | [] => []

/-- `.replace('file:///', '')` from kml2kmz.py line 56 at the string level. -/
def strip_file_uri (s : String) : String :=
  String.mk (stripFileUriAux s.data)

/-- `os.path.basename` restricted to slash-separated paths as produced here
(kml2kmz.py line 64): scanning left to right, restart the accumulator at
every `/`, keeping the characters after the last one. -/
def basename (s : String) : String :=
  String.mk (s.data.foldl (fun acc c => if c = '/' then [] else acc ++ [c]) [])

/-- What kml2kmz.py records for one resolved href. -/
structure HrefResult where
  /-- the filesystem path whose contents are stored -/
  src : String
  /-- the archive entry name `files/{basename}` -/
  entry : String
  /-- the rewritten node value -/
  rewritten : String
  deriving DecidableEq

/-- Processing of one `<href>` node, kml2kmz.py lines 53-69: decode, strip the
local-file URI marker, try the path as given, then relative to the document's
directory `base`, else abort with `parser.error` naming the path that could
not be found.  `ex` is the file-existence predicate of the filesystem. -/
def process_href (ex : String → Bool) (base href : String) :
    Except String HrefResult :=
  match urldecode href with
  | none => .error "ValueError: invalid literal for int() with base 16"
  | some d =>
    let img0 := strip_file_uri d
    let img := if ex img0 then img0 else base ++ "/" ++ img0
    if ex img then
      let filename := "files/" ++ basename img
      .ok { src := img, entry := filename, rewritten := filename }
    else
      .error ("Unable to find image: " ++ img)

/-- The whole href loop: one archive entry per node, aborting at the first
unresolvable reference (nothing is written for it or for later nodes). -/
def process_all (ex : String → Bool) (base : String) :
    List String → Except String (List HrefResult)
  | [] => .ok []
  | href :: rest =>
    match process_href ex base href with
    | .error e => .error e
    | .ok r =>
      match process_all ex base rest with
      | .error e => .error e
      | .ok rs => .ok (r :: rs)

end Kml2Kmz

namespace Gdal2Kml

theorem firstMinBy_cons {α : Type} (key : α → ℤ) :
    ∀ (ys : List α) (x y : α),
      firstMinBy key x (y :: ys) =
        if key x ≤ key (firstMinBy key y ys) then x else firstMinBy key y ys
  | [], x, y => by
    simp only [firstMinBy, List.foldl]
    split_ifs <;> first | rfl | (exfalso; omega)
  | z :: zs, x, y => by
    have e1 : firstMinBy key x (y :: z :: zs) =
        firstMinBy key (if key y < key x then y else x) (z :: zs) := rfl
    have e2 := firstMinBy_cons key zs y z
    have e3 := firstMinBy_cons key zs (if key y < key x then y else x) z
    rw [e1, e3, e2]
    split_ifs <;> first | rfl | (exfalso; omega)

theorem firstMinBy_mem {α : Type} (key : α → ℤ) :
    ∀ (xs : List α) (x : α), firstMinBy key x xs = x ∨ firstMinBy key x xs ∈ xs
  | [], _ => Or.inl rfl
  | y :: ys, x => by
    have e1 : firstMinBy key x (y :: ys) =
        firstMinBy key (if key y < key x then y else x) ys := rfl
    rcases firstMinBy_mem key ys (if key y < key x then y else x) with h | h
    · rw [e1, h]
      split_ifs with hc
      · exact Or.inr (List.mem_cons_self y ys)
      · exact Or.inl rfl
    · exact Or.inr (List.mem_cons_of_mem y (e1 ▸ h))

theorem head?_orderedInsert {α : Type} (le : α → α → Prop) [DecidableRel le] (x : α) :
    ∀ s : List α,
      (s.orderedInsert le x).head? =
        some (match s with
              | [] => x
              | b :: _ => if le x b then x else b)
  | [] => rfl
  | b :: l => by
    simp only [List.orderedInsert]
    split_ifs <;> rfl

theorem head?_insertionSort_firstMin {α : Type} (key : α → ℤ) :
    ∀ (xs : List α) (x : α),
      ((x :: xs).insertionSort (fun a b => key a ≤ key b)).head? =
        some (firstMinBy key x xs)
  | [], x => rfl
  | y :: ys, x => by
    have ih := head?_insertionSort_firstMin key ys y
    have hperm := List.perm_insertionSort (fun a b => key a ≤ key b) (y :: ys)
    obtain ⟨b, l, hbl⟩ : ∃ b l,
        List.insertionSort (fun a b => key a ≤ key b) (y :: ys) = b :: l := by
      cases hs : List.insertionSort (fun a b => key a ≤ key b) (y :: ys) with
      | nil => rw [hs] at hperm; exact absurd hperm.symm (by simp)
      | cons b l => exact ⟨b, l, rfl⟩
    have hb : b = firstMinBy key y ys := by
      rw [hbl] at ih
      exact Option.some.inj ih
    have hstep : List.insertionSort (fun a b => key a ≤ key b) (x :: y :: ys) =
        (List.insertionSort (fun a b => key a ≤ key b) (y :: ys)).orderedInsert
          (fun a b => key a ≤ key b) x := rfl
    rw [hstep, hbl, head?_orderedInsert, hb, firstMinBy_cons]

theorem headI_of_head? {α : Type} [Inhabited α] {l : List α} {m : α}
    (h : l.head? = some m) : l.headI = m := by
  cases l with
  | nil => simp at h
  | cons b t => simpa [List.headI] using h

/-- C2: for a canvas no wider than the target edge, the solver returns
`(1, ceil(area / target^2))`; for a canvas wider than the target edge but no
taller than it, the solver returns `(ceil(area / target^2), 1)`
(gdal2kml.py lines 18-25). -/
theorem tiles_trivial_cases (w h target : ℤ) (ht : 1 ≤ target) :
    (w ≤ target →
      tiles w h target = (1, ⌈((w : ℚ) * (h : ℚ)) / (target : ℚ) ^ 2⌉)) ∧
    (target < w → h ≤ target →
      tiles w h target = (⌈((w : ℚ) * (h : ℚ)) / (target : ℚ) ^ 2⌉, 1)) := by
  constructor
  · intro hw
    simp [tiles, hw]
  · intro hw hh
    simp [tiles, not_le.mpr hw, hh]

theorem head?_insertionSort_key22 (xs : List (ℤ × ℤ × ℤ)) (x : ℤ × ℤ × ℤ) :
    ((x :: xs).insertionSort (fun a b => a.2.2 ≤ b.2.2)).head? =
      some (firstMinBy (fun c => c.2.2) x xs) :=
  head?_insertionSort_firstMin (fun c => c.2.2) xs x

/-- C1: on a canvas strictly larger than the target edge in both axes, the
solver evaluates exactly the four candidates (ceiling and floor of each axis
ratio as driving count, the other count derived as the ceiling of
`best_case / driving`), and returns the first candidate of minimal total cell
count in generation order — the head of the stable sort by total
(gdal2kml.py lines 27-42). -/
theorem tiles_general_min (w h target : ℤ) (ht : 1 ≤ target)
    (hw : target < w) (hh : target < h) :
    tiles w h target =
      (let best : ℚ := ((w : ℚ) * (h : ℚ)) / (target : ℚ) ^ 2
       let up0 : ℤ := ⌈(w : ℚ) / (target : ℚ)⌉
       let dn0 : ℤ := ⌊(w : ℚ) / (target : ℚ)⌋
       let up1 : ℤ := ⌈(h : ℚ) / (target : ℚ)⌉
       let dn1 : ℤ := ⌊(h : ℚ) / (target : ℚ)⌋
       let cand : ℤ → ℤ × ℤ × ℤ :=
         fun a => (a, ⌈best / (a : ℚ)⌉, a * ⌈best / (a : ℚ)⌉)
       let m := firstMinBy (fun c => c.2.2) (cand up0) [cand dn0, cand up1, cand dn1]
       (m.1, m.2.1)) := by
  have h1 : ¬ w ≤ target := not_le.mpr hw
  have h2 : ¬ h ≤ target := not_le.mpr hh
  have hhead := head?_insertionSort_key22
    [(⌊(w : ℚ) / (target : ℚ)⌋,
        ⌈(((w : ℚ) * (h : ℚ)) / (target : ℚ) ^ 2) / ((⌊(w : ℚ) / (target : ℚ)⌋ : ℤ) : ℚ)⌉,
        ⌊(w : ℚ) / (target : ℚ)⌋ *
          ⌈(((w : ℚ) * (h : ℚ)) / (target : ℚ) ^ 2) / ((⌊(w : ℚ) / (target : ℚ)⌋ : ℤ) : ℚ)⌉),
     (⌈(h : ℚ) / (target : ℚ)⌉,
        ⌈(((w : ℚ) * (h : ℚ)) / (target : ℚ) ^ 2) / ((⌈(h : ℚ) / (target : ℚ)⌉ : ℤ) : ℚ)⌉,
        ⌈(h : ℚ) / (target : ℚ)⌉ *
          ⌈(((w : ℚ) * (h : ℚ)) / (target : ℚ) ^ 2) / ((⌈(h : ℚ) / (target : ℚ)⌉ : ℤ) : ℚ)⌉),
     (⌊(h : ℚ) / (target : ℚ)⌋,
        ⌈(((w : ℚ) * (h : ℚ)) / (target : ℚ) ^ 2) / ((⌊(h : ℚ) / (target : ℚ)⌋ : ℤ) : ℚ)⌉,
        ⌊(h : ℚ) / (target : ℚ)⌋ *
          ⌈(((w : ℚ) * (h : ℚ)) / (target : ℚ) ^ 2) / ((⌊(h : ℚ) / (target : ℚ)⌋ : ℤ) : ℚ)⌉)]
    (⌈(w : ℚ) / (target : ℚ)⌉,
        ⌈(((w : ℚ) * (h : ℚ)) / (target : ℚ) ^ 2) / ((⌈(w : ℚ) / (target : ℚ)⌉ : ℤ) : ℚ)⌉,
        ⌈(w : ℚ) / (target : ℚ)⌉ *
          ⌈(((w : ℚ) * (h : ℚ)) / (target : ℚ) ^ 2) / ((⌈(w : ℚ) / (target : ℚ)⌉ : ℤ) : ℚ)⌉)
  have hI := headI_of_head? hhead
  simp only [tiles, if_neg h1, if_neg h2]
  rw [hI]

theorem tiles_general_min_witness :
    tiles 3000 2000 1024 =
      (let best : ℚ := (((3000 : ℤ) : ℚ) * ((2000 : ℤ) : ℚ)) / (((1024 : ℤ) : ℚ)) ^ 2
       let up0 : ℤ := ⌈((3000 : ℤ) : ℚ) / (((1024 : ℤ) : ℚ))⌉
       let dn0 : ℤ := ⌊((3000 : ℤ) : ℚ) / (((1024 : ℤ) : ℚ))⌋
       let up1 : ℤ := ⌈((2000 : ℤ) : ℚ) / (((1024 : ℤ) : ℚ))⌉
       let dn1 : ℤ := ⌊((2000 : ℤ) : ℚ) / (((1024 : ℤ) : ℚ))⌋
       let cand : ℤ → ℤ × ℤ × ℤ :=
         fun a => (a, ⌈best / (a : ℚ)⌉, a * ⌈best / (a : ℚ)⌉)
       let m := firstMinBy (fun c => c.2.2) (cand up0) [cand dn0, cand up1, cand dn1]
       (m.1, m.2.1)) :=
  tiles_general_min 3000 2000 1024 (by decide) (by decide) (by decide)

theorem tiles_trivial_cases_witness :
    tiles 500 2000 1024 =
      (1, ⌈(((500 : ℤ) : ℚ) * ((2000 : ℤ) : ℚ)) / (((1024 : ℤ) : ℚ)) ^ 2⌉) ∧
    tiles 2000 500 1024 =
      (⌈(((2000 : ℤ) : ℚ) * ((500 : ℤ) : ℚ)) / (((1024 : ℤ) : ℚ)) ^ 2⌉, 1) :=
  ⟨(tiles_trivial_cases 500 2000 1024 (by decide)).1 (by decide),
   (tiles_trivial_cases 2000 500 1024 (by decide)).2 (by decide) (by decide)⟩

/-- C3: with both rotation coefficients zero, the tile bounds are the two
pixel corners mapped through the affine formula: west/north from the top-left
corner `(px0, py0)`, east/south from the bottom-right corner
`(px0 + sx, py0 + sy)` (gdal2kml.py lines 45-49 and 73-88). -/
theorem create_tile_bounds_formula (px0 py0 sx sy : ℤ) (gt : GeoTransform)
    (h2 : gt.t2 = 0) (h4 : gt.t4 = 0) :
    (create_tile (px0, py0) (sx, sy) gt).2 =
      .ok { north := gt.t3 + (py0 : ℚ) * gt.t5,
            east := gt.t0 + ((px0 + sx : ℤ) : ℚ) * gt.t1,
            south := gt.t3 + ((py0 + sy : ℤ) : ℚ) * gt.t5,
            west := gt.t0 + (px0 : ℚ) * gt.t1 } := by
  simp only [create_tile, transform, h2, h4, ne_eq, not_true_eq_false, or_self,
    if_false, mul_zero, add_zero]

theorem create_tile_bounds_formula_witness :
    (create_tile (0, 0) (10, 10) ⟨0, 1, 0, 0, 0, -1⟩).2 =
      .ok { north := 0, east := 10, south := -10, west := 0 } := by
  have := create_tile_bounds_formula 0 0 10 10 ⟨0, 1, 0, 0, 0, -1⟩ rfl rfl
  norm_num at this
  exact this

/-- C4: computing a tile's geographic bounds fails — with the rotation
error — exactly when the geotransform's row-rotation or column-rotation
coefficient is non-zero, whatever the other coefficients and the pixel
rectangle (gdal2kml.py lines 75-79). -/
theorem create_tile_error_iff (offset size : ℤ × ℤ) (gt : GeoTransform) :
    ((create_tile offset size gt).2 =
        Except.error "Source projection incompatible, transform contains rotation")
      ↔ (gt.t2 ≠ 0 ∨ gt.t4 ≠ 0) := by
  by_cases hc : gt.t2 ≠ 0 ∨ gt.t4 ≠ 0 <;> simp [create_tile, hc]

/-- C5 (code-bug evidence): `create_tile` passes an out-of-range pixel
rectangle straight to the raster read — request `(8,0)` size `(5,5)` on a
10-pixel-wide image reads up to column 13 — performing no clamping and
raising no error: the call still succeeds.  The guards in `create_kml`
(lines 161-165) assign a size variable to itself and the check at line 169
only logs, so nothing upstream clamps or fails either. -/
theorem create_tile_out_of_bounds_proceeds :
    (create_tile (8, 0) (5, 5) ⟨0, 1, 0, 0, 0, -1⟩).1 = ((8, 0), (5, 5)) ∧
    ((create_tile (8, 0) (5, 5) ⟨0, 1, 0, 0, 0, -1⟩).2).isOk = true ∧
    (8 : ℤ) + 5 > 10 := by
  refine ⟨rfl, ?_, by decide⟩
  simp [create_tile, Except.isOk, Except.toBool]

theorem tiles_pos (w h target : ℤ) (hw : 1 ≤ w) (hh : 1 ≤ h) (ht : 1 ≤ target) :
    1 ≤ (tiles w h target).1 ∧ 1 ≤ (tiles w h target).2 := by
  have htq : (0 : ℚ) < (target : ℚ) := by exact_mod_cast lt_of_lt_of_le zero_lt_one ht
  have hwq : (0 : ℚ) < (w : ℚ) := by exact_mod_cast lt_of_lt_of_le zero_lt_one hw
  have hhq : (0 : ℚ) < (h : ℚ) := by exact_mod_cast lt_of_lt_of_le zero_lt_one hh
  have hbest : (0 : ℚ) < ((w : ℚ) * (h : ℚ)) / (target : ℚ) ^ 2 :=
    div_pos (mul_pos hwq hhq) (by positivity)
  have hceil_best : (1 : ℤ) ≤ ⌈((w : ℚ) * (h : ℚ)) / (target : ℚ) ^ 2⌉ :=
    Int.ceil_pos.mpr hbest
  by_cases h1 : w ≤ target
  · constructor
    · simp [tiles, h1]
    · simpa [tiles, h1] using hceil_best
  by_cases h2 : h ≤ target
  · constructor
    · simpa [tiles, h1, h2] using hceil_best
    · simp [tiles, h1, h2]
  have hwt : (target : ℚ) ≤ (w : ℚ) := by exact_mod_cast le_of_not_le h1
  have hht : (target : ℚ) ≤ (h : ℚ) := by exact_mod_cast le_of_not_le h2
  have hup0 : (1 : ℤ) ≤ ⌈(w : ℚ) / (target : ℚ)⌉ :=
    Int.ceil_pos.mpr (div_pos hwq htq)
  have hdn0 : (1 : ℤ) ≤ ⌊(w : ℚ) / (target : ℚ)⌋ :=
    Int.le_floor.mpr (by rw [Int.cast_one]; exact (one_le_div htq).mpr hwt)
  have hup1 : (1 : ℤ) ≤ ⌈(h : ℚ) / (target : ℚ)⌉ :=
    Int.ceil_pos.mpr (div_pos hhq htq)
  have hdn1 : (1 : ℤ) ≤ ⌊(h : ℚ) / (target : ℚ)⌋ :=
    Int.le_floor.mpr (by rw [Int.cast_one]; exact (one_le_div htq).mpr hht)
  have hderived : ∀ a : ℤ, 1 ≤ a →
      (1 : ℤ) ≤ ⌈(((w : ℚ) * (h : ℚ)) / (target : ℚ) ^ 2) / ((a : ℤ) : ℚ)⌉ := by
    intro a ha
    have haq : (0 : ℚ) < ((a : ℤ) : ℚ) := by exact_mod_cast lt_of_lt_of_le zero_lt_one ha
    exact Int.ceil_pos.mpr (div_pos hbest haq)
  have hhead := head?_insertionSort_key22
    [(⌊(w : ℚ) / (target : ℚ)⌋,
        ⌈(((w : ℚ) * (h : ℚ)) / (target : ℚ) ^ 2) / ((⌊(w : ℚ) / (target : ℚ)⌋ : ℤ) : ℚ)⌉,
        ⌊(w : ℚ) / (target : ℚ)⌋ *
          ⌈(((w : ℚ) * (h : ℚ)) / (target : ℚ) ^ 2) / ((⌊(w : ℚ) / (target : ℚ)⌋ : ℤ) : ℚ)⌉),
     (⌈(h : ℚ) / (target : ℚ)⌉,
        ⌈(((w : ℚ) * (h : ℚ)) / (target : ℚ) ^ 2) / ((⌈(h : ℚ) / (target : ℚ)⌉ : ℤ) : ℚ)⌉,
        ⌈(h : ℚ) / (target : ℚ)⌉ *
          ⌈(((w : ℚ) * (h : ℚ)) / (target : ℚ) ^ 2) / ((⌈(h : ℚ) / (target : ℚ)⌉ : ℤ) : ℚ)⌉),
     (⌊(h : ℚ) / (target : ℚ)⌋,
        ⌈(((w : ℚ) * (h : ℚ)) / (target : ℚ) ^ 2) / ((⌊(h : ℚ) / (target : ℚ)⌋ : ℤ) : ℚ)⌉,
        ⌊(h : ℚ) / (target : ℚ)⌋ *
          ⌈(((w : ℚ) * (h : ℚ)) / (target : ℚ) ^ 2) / ((⌊(h : ℚ) / (target : ℚ)⌋ : ℤ) : ℚ)⌉)]
    (⌈(w : ℚ) / (target : ℚ)⌉,
        ⌈(((w : ℚ) * (h : ℚ)) / (target : ℚ) ^ 2) / ((⌈(w : ℚ) / (target : ℚ)⌉ : ℤ) : ℚ)⌉,
        ⌈(w : ℚ) / (target : ℚ)⌉ *
          ⌈(((w : ℚ) * (h : ℚ)) / (target : ℚ) ^ 2) / ((⌈(w : ℚ) / (target : ℚ)⌉ : ℤ) : ℚ)⌉)
  have hI := headI_of_head? hhead
  simp only [tiles, if_neg h1, if_neg h2]
  rw [hI]
  rcases firstMinBy_mem (fun c : ℤ × ℤ × ℤ => c.2.2) _ _ with hm | hm
  · rw [hm]
    exact ⟨hup0, hderived _ hup0⟩
  · simp only [List.mem_cons, List.not_mem_nil, or_false] at hm
    rcases hm with hm | hm | hm <;> rw [hm]
    · exact ⟨hdn0, hderived _ hdn0⟩
    · exact ⟨hup1, hderived _ hup1⟩
    · exact ⟨hdn1, hderived _ hdn1⟩

theorem floor_div_bounds (m n : ℤ) (hm : 1 ≤ m) (hn : 1 ≤ n) :
    0 ≤ ⌊(m : ℚ) / (n : ℚ)⌋ ∧ n * ⌊(m : ℚ) / (n : ℚ)⌋ ≤ m ∧
      m < n * ⌊(m : ℚ) / (n : ℚ)⌋ + n := by
  have hnq : (0 : ℚ) < (n : ℚ) := by exact_mod_cast lt_of_lt_of_le zero_lt_one hn
  have hmq : (0 : ℚ) ≤ (m : ℚ) := by exact_mod_cast le_trans zero_le_one hm
  have h1 : ((⌊(m : ℚ) / (n : ℚ)⌋ : ℤ) : ℚ) ≤ (m : ℚ) / (n : ℚ) := Int.floor_le _
  have h2 : (m : ℚ) / (n : ℚ) < (⌊(m : ℚ) / (n : ℚ)⌋ : ℚ) + 1 := Int.lt_floor_add_one _
  refine ⟨?_, ?_, ?_⟩
  · exact Int.le_floor.mpr (by rw [Int.cast_zero]; exact div_nonneg hmq (le_of_lt hnq))
  · have h3 : ((⌊(m : ℚ) / (n : ℚ)⌋ : ℤ) : ℚ) * (n : ℚ) ≤ (m : ℚ) := (le_div_iff₀ hnq).mp h1
    have h4 : (⌊(m : ℚ) / (n : ℚ)⌋ : ℤ) * n ≤ m := by exact_mod_cast h3
    linarith [h4]
  · have h3 : (m : ℚ) < ((⌊(m : ℚ) / (n : ℚ)⌋ : ℚ) + 1) * (n : ℚ) := (div_lt_iff₀ hnq).mp h2
    have h4 : (m : ℤ) < (⌊(m : ℚ) / (n : ℚ)⌋ + 1) * n := by exact_mod_cast h3
    linarith [h4]

/-- C10: every pixel rectangle requested by the tile loop lies inside the
source image: with tile sizes floored from `cropped / layout`
(gdal2kml.py line 139), the requested span `border + (t + 1) * tile_size`
never exceeds the image edge, so the out-of-bounds test at line 169 can never
fire; the grid may instead leave up to `cols - 1` (resp. `rows - 1`) pixels
of the cropped canvas uncovered at the right (resp. bottom) edge. -/
theorem grid_rects_within_bounds (imgW imgH border target tX tY : ℤ)
    (hb : 0 ≤ border) (ht : 1 ≤ target)
    (hcw : 1 ≤ imgW - 2 * border) (hch : 1 ≤ imgH - 2 * border)
    (hx0 : 0 ≤ tX)
    (hx1 : tX < (tiles (imgW - 2 * border) (imgH - 2 * border) target).1)
    (hy0 : 0 ≤ tY)
    (hy1 : tY < (tiles (imgW - 2 * border) (imgH - 2 * border) target).2) :
    (let cols := (tiles (imgW - 2 * border) (imgH - 2 * border) target).1
     let rows := (tiles (imgW - 2 * border) (imgH - 2 * border) target).2
     let tw := ⌊((imgW - 2 * border : ℤ) : ℚ) / (cols : ℚ)⌋
     let th := ⌊((imgH - 2 * border : ℤ) : ℚ) / (rows : ℚ)⌋
     border + tX * tw + tw ≤ imgW ∧ border + tY * th + th ≤ imgH ∧
       (imgW - 2 * border) - cols * tw ≤ cols - 1 ∧
       (imgH - 2 * border) - rows * th ≤ rows - 1) := by
  obtain ⟨hcols, hrows⟩ := tiles_pos (imgW - 2 * border) (imgH - 2 * border) target
    (by omega) (by omega) ht
  obtain ⟨htw0, htw1, htw2⟩ := floor_div_bounds (imgW - 2 * border)
    (tiles (imgW - 2 * border) (imgH - 2 * border) target).1 (by omega) hcols
  obtain ⟨hth0, hth1, hth2⟩ := floor_div_bounds (imgH - 2 * border)
    (tiles (imgW - 2 * border) (imgH - 2 * border) target).2 (by omega) hrows
  refine ⟨?_, ?_, ?_, ?_⟩
  · have h5 := mul_le_mul_of_nonneg_right (show tX + 1 ≤
      (tiles (imgW - 2 * border) (imgH - 2 * border) target).1 by omega) htw0
    linarith [h5, htw1]
  · have h5 := mul_le_mul_of_nonneg_right (show tY + 1 ≤
      (tiles (imgW - 2 * border) (imgH - 2 * border) target).2 by omega) hth0
    linarith [h5, hth1]
  · have h6 := Int.add_one_le_iff.mpr htw2
    linarith [h6]
  · have h6 := Int.add_one_le_iff.mpr hth2
    linarith [h6]

theorem grid_rects_within_bounds_witness :
    (let cols := (tiles (3000 - 2 * 0) (2000 - 2 * 0) 1024).1
     let rows := (tiles (3000 - 2 * 0) (2000 - 2 * 0) 1024).2
     let tw := ⌊((3000 - 2 * 0 : ℤ) : ℚ) / (cols : ℚ)⌋
     let th := ⌊((2000 - 2 * 0 : ℤ) : ℚ) / (rows : ℚ)⌋
     (0 : ℤ) + 0 * tw + tw ≤ 3000 ∧ (0 : ℤ) + 0 * th + th ≤ 2000 ∧
       (3000 - 2 * 0) - cols * tw ≤ cols - 1 ∧
       (2000 - 2 * 0) - rows * th ≤ rows - 1) :=
  grid_rects_within_bounds 3000 2000 0 1024 0 0 (by decide) (by decide)
    (by decide) (by decide) (by decide)
    (lt_of_lt_of_le zero_lt_one
      (tiles_pos (3000 - 2 * 0) (2000 - 2 * 0) 1024 (by decide) (by decide) (by decide)).1)
    (by decide)
    (lt_of_lt_of_le zero_lt_one
      (tiles_pos (3000 - 2 * 0) (2000 - 2 * 0) 1024 (by decide) (by decide) (by decide)).2)

theorem concatMap_append {α : Type} (f : α → String) :
    ∀ l1 l2 : List α, concatMap f (l1 ++ l2) = concatMap f l1 ++ concatMap f l2
  | [], _ => rfl
  | x :: xs, l2 => by
    simp only [List.cons_append, List.append_eq, concatMap,
      concatMap_append f xs l2, String.append_assoc]

theorem kml_body_eq (gt : GeoTransform) (imgW imgH border tw th : ℤ)
    (base directory path : String) (order : ℤ) (exclude : List String)
    (h2 : gt.t2 = 0) (h4 : gt.t4 = 0) :
    ∀ cells : List (ℕ × ℕ),
      kml_body gt imgW imgH border tw th base directory path order exclude cells =
        .ok (concatMap (fun c => ground_overlay (tile_outfile base c.1 c.2) path order
                (cell_bounds gt border tw th c))
              (cells.filter (fun c => !(exclude.contains (tile_id c.1 c.2)))),
            (cells.filter (fun c => !(exclude.contains (tile_id c.1 c.2)))).map
              (fun c => directory ++ "/" ++ tile_outfile base c.1 c.2))
  | [] => rfl
  | (tY, tX) :: rest => by
    have ih := kml_body_eq gt imgW imgH border tw th base directory path order
      exclude h2 h4 rest
    by_cases hex : exclude.contains (tile_id tY tX)
    · simp only [kml_body, hex, if_true, List.filter_cons, Bool.not_true,
        Bool.false_eq_true, if_false, ih]
    · simp only [kml_body, hex, Bool.false_eq_true, if_false, List.filter_cons,
        Bool.not_false, if_true, create_tile, h2, h4, ne_eq, not_true_eq_false,
        or_self, ite_self, ih, cell_bounds, concatMap, List.map_cons]

/-- C6: for every grid layout and exclusion set (and a rotation-free
geotransform, under which no cell aborts the run), the document body holds
exactly one ground-overlay element per cell whose identifier `"{row},{column}"`
is not excluded, in row-major order, and exactly the corresponding tile files
are written; excluded cells contribute neither an element nor a file
(gdal2kml.py lines 151-193). -/
theorem kml_doc_entries (gt : GeoTransform) (imgW imgH border tw th : ℤ)
    (base directory path name : String) (order : ℤ) (exclude : List String)
    (cols rows : ℕ) (h2 : gt.t2 = 0) (h4 : gt.t4 = 0) :
    kml_doc gt imgW imgH border tw th base directory path name order exclude cols rows =
      .ok (kml_header name ++
          concatMap (fun c => ground_overlay (tile_outfile base c.1 c.2) path order
              (cell_bounds gt border tw th c))
            ((kml_cells cols rows).filter
              (fun c => !(exclude.contains (tile_id c.1 c.2)))) ++
          kml_footer,
        ((kml_cells cols rows).filter
            (fun c => !(exclude.contains (tile_id c.1 c.2)))).map
          (fun c => directory ++ "/" ++ tile_outfile base c.1 c.2)) := by
  simp only [kml_doc,
    kml_body_eq gt imgW imgH border tw th base directory path order exclude h2 h4
      (kml_cells cols rows)]

theorem kml_doc_entries_witness :
    kml_doc ⟨0, 1, 0, 0, 0, -1⟩ 100 100 0 10 10 "img" "d" "p" "m" 20 [] 2 1 =
      .ok (kml_header "m" ++
          concatMap (fun c => ground_overlay (tile_outfile "img" c.1 c.2) "p" 20
              (cell_bounds ⟨0, 1, 0, 0, 0, -1⟩ 0 10 10 c))
            ((kml_cells 2 1).filter
              (fun c => !(([] : List String).contains (tile_id c.1 c.2)))) ++
          kml_footer,
        ((kml_cells 2 1).filter
            (fun c => !(([] : List String).contains (tile_id c.1 c.2)))).map
          (fun c => "d" ++ "/" ++ tile_outfile "img" c.1 c.2)) :=
  kml_doc_entries ⟨0, 1, 0, 0, 0, -1⟩ 100 100 0 10 10 "img" "d" "p" "m" 20 [] 2 1 rfl rfl

set_option maxRecDepth 40000 in
/-- C7 counterexample: with folder name `a<b` (every cell excluded, so the
document is just header and footer), the generated text carries the name
verbatim — `<name>a<b</name>` — and differs from the document an escaping
builder would produce: nothing is escaped. -/
theorem kml_name_unescaped_cex :
    kml_doc ⟨0, 1, 0, 0, 0, -1⟩ 100 100 0 10 10 "img" "d" "p" "a<b" 20 ["0,0"] 1 1 =
      .ok (kml_headerA ++ "a<b" ++ kml_headerB ++ kml_footer, []) ∧
    kml_headerA ++ "a<b" ++ kml_headerB ++ kml_footer ≠
      kml_headerA ++ xml_escape_spec "a<b" ++ kml_headerB ++ kml_footer := by
  constructor
  · rfl
  · decide

/-- C7 as the code has it: the folder name and every emitted tile file name
are interpolated verbatim into the document text — no character is escaped
(gdal2kml.py lines 144-149 and 174-181). -/
theorem kml_text_verbatim (gt : GeoTransform) (imgW imgH border tw th : ℤ)
    (base directory path name : String) (order : ℤ) (exclude : List String)
    (cols rows : ℕ) (h2 : gt.t2 = 0) (h4 : gt.t4 = 0) :
    ∃ doc files,
      kml_doc gt imgW imgH border tw th base directory path name order exclude
        cols rows = .ok (doc, files) ∧
      (∃ u v, doc = u ++ name ++ v) ∧
      (∀ c ∈ (kml_cells cols rows).filter
          (fun c => !(exclude.contains (tile_id c.1 c.2))),
        ∃ u v, doc = u ++ tile_outfile base c.1 c.2 ++ v) := by
  refine ⟨kml_header name ++
      concatMap (fun c => ground_overlay (tile_outfile base c.1 c.2) path order
          (cell_bounds gt border tw th c))
        ((kml_cells cols rows).filter
          (fun c => !(exclude.contains (tile_id c.1 c.2)))) ++
      kml_footer,
    ((kml_cells cols rows).filter
        (fun c => !(exclude.contains (tile_id c.1 c.2)))).map
      (fun c => directory ++ "/" ++ tile_outfile base c.1 c.2), ?_, ?_, ?_⟩
  · simp only [kml_doc,
      kml_body_eq gt imgW imgH border tw th base directory path order exclude h2 h4
        (kml_cells cols rows)]
  · exact ⟨kml_headerA,
      kml_headerB ++
        concatMap (fun c => ground_overlay (tile_outfile base c.1 c.2) path order
            (cell_bounds gt border tw th c))
          ((kml_cells cols rows).filter
            (fun c => !(exclude.contains (tile_id c.1 c.2)))) ++
        kml_footer,
      by simp only [kml_header, String.append_assoc]⟩
  · intro c hc
    obtain ⟨l1, l2, hsplit⟩ := List.append_of_mem hc
    refine ⟨kml_header name ++
        concatMap (fun c => ground_overlay (tile_outfile base c.1 c.2) path order
            (cell_bounds gt border tw th c)) l1 ++
        "    <GroundOverlay>\n                <name>",
      ground_overlay_tail (tile_outfile base c.1 c.2) path order
          (cell_bounds gt border tw th c) ++
        concatMap (fun c => ground_overlay (tile_outfile base c.1 c.2) path order
            (cell_bounds gt border tw th c)) l2 ++
        kml_footer, ?_⟩
    rw [hsplit, concatMap_append]
    simp only [concatMap, ground_overlay, String.append_assoc]

theorem kml_text_verbatim_witness :
    ∃ doc files,
      kml_doc ⟨0, 1, 0, 0, 0, -1⟩ 100 100 0 10 10 "img" "d" "p" "a<b" 20 [] 1 1 =
        .ok (doc, files) ∧
      (∃ u v, doc = u ++ "a<b" ++ v) ∧
      (∀ c ∈ (kml_cells 1 1).filter
          (fun c => !(([] : List String).contains (tile_id c.1 c.2))),
        ∃ u v, doc = u ++ tile_outfile "img" c.1 c.2 ++ v) :=
  kml_text_verbatim ⟨0, 1, 0, 0, 0, -1⟩ 100 100 0 10 10 "img" "d" "p" "a<b" 20 [] 1 1
    rfl rfl

end Gdal2Kml

namespace Kml2Kmz

theorem basename_append_slash (u t : String) :
    basename (u ++ "/" ++ t) = basename t := by
  have hdata : (u ++ "/" ++ t).data = (u.data ++ ['/']) ++ t.data := rfl
  simp only [basename, hdata, List.foldl_append, List.foldl_cons, List.foldl_nil]
  simp

theorem process_href_cases (ex : String → Bool) (base href d : String)
    (hd : (urldecode href).map strip_file_uri = some d) :
    process_href ex base href =
      (if ex d then
        .ok { src := d, entry := "files/" ++ basename d,
              rewritten := "files/" ++ basename d }
      else if ex (base ++ "/" ++ d) then
        .ok { src := base ++ "/" ++ d,
              entry := "files/" ++ basename (base ++ "/" ++ d),
              rewritten := "files/" ++ basename (base ++ "/" ++ d) }
      else
        .error ("Unable to find image: " ++ (base ++ "/" ++ d))) := by
  obtain ⟨d0, hd0, hstrip⟩ := Option.map_eq_some'.mp hd
  have hbody : process_href ex base href =
      (let img0 := strip_file_uri d0
       let img := if ex img0 then img0 else base ++ "/" ++ img0
       if ex img then
         .ok { src := img, entry := "files/" ++ basename img,
               rewritten := "files/" ++ basename img }
       else
         .error ("Unable to find image: " ++ img)) := by
    unfold process_href
    rw [hd0]
  rw [hbody]
  simp only [hstrip]
  by_cases h1 : ex d <;> simp [h1]

/-- C8 counterexample: decoding `file:///tmp/a%20b.jpg` and stripping the
local-file marker yields the slash-less path `tmp/a b.jpg`, not
`/tmp/a b.jpg` — `str.replace` removes the whole `file:///` including the
slash that began the absolute path; on a filesystem where `/tmp/a b.jpg` is
the only existing file and the document lives in `/x`, resolution therefore
fails outright. -/
theorem href_resolution_cex :
    (urldecode "file:///tmp/a%20b.jpg").map strip_file_uri = some "tmp/a b.jpg" ∧
    "tmp/a b.jpg" ≠ "/tmp/a b.jpg" ∧
    process_href (fun s => s == "/tmp/a b.jpg") "/x" "file:///tmp/a%20b.jpg" =
      .error "Unable to find image: /x/tmp/a b.jpg" :=
  ⟨rfl, by decide, rfl⟩

/-- C8 as the code has it: the reference `file:///tmp/a%20b.jpg` is
percent-decoded and the `file:///` prefix removed slash included, giving the
relative-looking path `tmp/a b.jpg`; whenever resolution (as given, or
relative to the document's directory) succeeds, the reference rewritten into
the output document is `files/a b.jpg` (kml2kmz.py lines 10-16, 53-69). -/
theorem href_rewrite_amended :
    (urldecode "file:///tmp/a%20b.jpg").map strip_file_uri = some "tmp/a b.jpg" ∧
    ∀ (ex : String → Bool) (base : String) (r : HrefResult),
      process_href ex base "file:///tmp/a%20b.jpg" = .ok r →
        r.rewritten = "files/a b.jpg" := by
  refine ⟨rfl, ?_⟩
  intro ex base r hr
  rw [process_href_cases ex base "file:///tmp/a%20b.jpg" "tmp/a b.jpg" rfl] at hr
  by_cases h1 : ex "tmp/a b.jpg" = true
  · rw [if_pos h1] at hr
    injection hr with h
    rw [← h]
    rfl
  · rw [if_neg (by simpa using h1)] at hr
    by_cases h2 : ex ("" ++ base ++ "/" ++ "tmp/a b.jpg") = true
    · rw [if_pos (by simpa using h2)] at hr
      injection hr with h
      rw [← h]
      show "files/" ++ basename (base ++ "/" ++ "tmp/a b.jpg") = "files/a b.jpg"
      rw [basename_append_slash]
      rfl
    · rw [if_neg (by simpa using h2)] at hr
      exact absurd hr (by simp)

theorem href_rewrite_amended_witness :
    process_href (fun _ => true) "" "file:///tmp/a%20b.jpg" =
      .ok { src := "tmp/a b.jpg", entry := "files/a b.jpg",
            rewritten := "files/a b.jpg" } ∧
    ({ src := "tmp/a b.jpg", entry := "files/a b.jpg",
       rewritten := "files/a b.jpg" } : HrefResult).rewritten = "files/a b.jpg" :=
  ⟨rfl, href_rewrite_amended.2 (fun _ => true) "" _ rfl⟩

/-- C9: for the decoded-and-stripped path `d` of a reference, the repackager
first tries `d` itself; if that does not exist it tries
`base + "/" + d` (the document's directory); and if that is also missing it
aborts with an error naming the unresolved path, producing no archive entry
for it nor for any later reference (kml2kmz.py lines 53-69). -/
theorem href_resolution_order (ex : String → Bool) (base href d : String)
    (hd : (urldecode href).map strip_file_uri = some d) :
    (ex d = true →
      process_href ex base href =
        .ok { src := d, entry := "files/" ++ basename d,
              rewritten := "files/" ++ basename d }) ∧
    (ex d = false → ex (base ++ "/" ++ d) = true →
      process_href ex base href =
        .ok { src := base ++ "/" ++ d,
              entry := "files/" ++ basename (base ++ "/" ++ d),
              rewritten := "files/" ++ basename (base ++ "/" ++ d) }) ∧
    (ex d = false → ex (base ++ "/" ++ d) = false →
      process_href ex base href =
        .error ("Unable to find image: " ++ (base ++ "/" ++ d)) ∧
      ∀ rest, process_all ex base (href :: rest) =
        .error ("Unable to find image: " ++ (base ++ "/" ++ d))) := by
  have hc := process_href_cases ex base href d hd
  refine ⟨?_, ?_, ?_⟩
  · intro h1
    rw [hc, if_pos h1]
  · intro h1 h2
    rw [hc, if_neg (by simp [h1]), if_pos h2]
  · intro h1 h2
    have herr : process_href ex base href =
        .error ("Unable to find image: " ++ (base ++ "/" ++ d)) := by
      rw [hc, if_neg (by simp [h1]), if_neg (by simp [h2])]
    exact ⟨herr, fun rest => by simp [process_all, herr]⟩

theorem href_resolution_order_witness :
    ((fun s : String => s == "a.jpg") "a.jpg" = true) ∧
    process_href (fun s : String => s == "a.jpg") "b" "a.jpg" =
      .ok { src := "a.jpg", entry := "files/" ++ basename "a.jpg",
            rewritten := "files/" ++ basename "a.jpg" } :=
  ⟨rfl,
   (href_resolution_order (fun s : String => s == "a.jpg") "b" "a.jpg" "a.jpg" rfl).1 rfl⟩

end Kml2Kmz
